import Mathlib

/-!
Verification development for the IMAP authentication and email-fetching core
of the gmail_classifier repository
(`src/gmail_classifier/auth/imap.py`, `src/gmail_classifier/email/fetcher.py`).

The Python code is shallowly embedded: each Python function that the checked
properties depend on is translated into an executable Lean definition.
Wall-clock times (`datetime.now()`) are modelled as integers counting seconds;
`timedelta(minutes=m)` is `60 * m` seconds.  Python strings are modelled as
`List Char`; the character-class predicates below agree with Python's
`str.isupper`/`islower`/`isdigit`/`isalpha`/`string.punctuation` on ASCII,
which is the domain of the password rules under scrutiny.
-/

set_option autoImplicit false

namespace GmailImap

/-! ## Character classes (ASCII fragment of Python's str methods) -/

/-- `string.punctuation` from CPython: the 32 ASCII punctuation characters,
code points 33-47, 58-64, 91-96 and 123-126. -/
def pyIsPunct (c : Char) : Bool :=
  (33 ≤ c.toNat && c.toNat ≤ 47) || (58 ≤ c.toNat && c.toNat ≤ 64) ||
  (91 ≤ c.toNat && c.toNat ≤ 96) || (123 ≤ c.toNat && c.toNat ≤ 126)

/-- Python `str.isalpha()`: non-empty and every character alphabetic. -/
def pyIsAlphaStr (l : List Char) : Bool :=
  !l.isEmpty && l.all Char.isAlpha

/-- Python `str.islower()`: at least one cased character and no uppercase
character (on ASCII the cased characters are exactly the letters). -/
def pyIsLowerStr (l : List Char) : Bool :=
  l.any (fun c => c.isUpper || c.isLower) && l.all (fun c => !c.isUpper)

/-- `re.search(r'(.)\1{2,}', s)` with no flags: `.` does not match a newline
(no `re.DOTALL`), so the regex succeeds iff `s` has three or more equal
consecutive characters whose character is not `'\n'` (the backreference
repeats the captured character, which `.` forced to be a non-newline). -/
def hasRun3 : List Char → Bool
  | a :: b :: c :: rest => (a ≠ '\n' && a = b && b = c) || hasRun3 (b :: c :: rest)
  | _ => false

/-- The spec's words, for comparison with `hasRun3`: "no substring of 3 or
more identical consecutive characters", with no newline exception. -/
def hasRun3Spec : List Char → Bool
  | a :: b :: c :: rest => (a = b && b = c) || hasRun3Spec (b :: c :: rest)
  | _ => false

/-! ## `IMAPCredentials._validate_password` (auth/imap.py lines 187-244)

`_validate_password` starts with `password = self.password`; the `password`
property raises `ValueError("Password has been cleared from memory")` when the
internal bytearray is empty, which is the case exactly for the empty string.
Each later `raise ValueError(...)` site is identified by a `PwError`
constructor. -/

inductive PwError where
  /-- "Password has been cleared from memory" (the `password` property). -/
  | clearedFromMemory
  /-- "Gmail app passwords must be lowercase. ..." -/
  | appPasswordNotLowercase
  /-- "Password must not exceed 64 characters" -/
  | tooLong
  /-- "Regular passwords must be at least 12 characters. ..." -/
  | tooShort
  /-- "Password must contain at least 3 of: uppercase, lowercase, digits,
  special characters" -/
  | lowComplexity
  /-- "Password contains too many repeated characters" -/
  | repeatedCharacters
deriving DecidableEq, Repr

/-- The four `any(...)` complexity checks of `_validate_password`, summed as in
`complexity_count = sum([has_upper, has_lower, has_digit, has_special])`. -/
def complexityCount (password : List Char) : Nat :=
  (if password.any Char.isUpper then 1 else 0) +
  (if password.any Char.isLower then 1 else 0) +
  (if password.any Char.isDigit then 1 else 0) +
  (if password.any pyIsPunct then 1 else 0)

/-- `IMAPCredentials._validate_password`, translated clause by clause.
The local `clean_password = password.replace(' ', '')` is inlined as
`password.filter (fun c => c ≠ ' ')`. -/
def validatePassword (password : List Char) : Except PwError Unit :=
  if password.isEmpty then .error .clearedFromMemory
  else if (password.filter (fun c => c ≠ ' ')).length = 16 ∧
      pyIsAlphaStr (password.filter (fun c => c ≠ ' ')) = true then
    if pyIsLowerStr (password.filter (fun c => c ≠ ' ')) = false then
      .error .appPasswordNotLowercase
    else .ok ()
  else if password.length > 64 then .error .tooLong
  else if password.length < 12 then .error .tooShort
  else if complexityCount password < 3 then .error .lowComplexity
  else if hasRun3 password = true then .error .repeatedCharacters
  else .ok ()

/-! ## Rate limiter (`IMAPAuthenticator._check_rate_limit`, lines 834-871) -/

/-- Per-email rate-limiting state: `_failed_attempts[email]` (timestamps in
seconds) and the optional `_lockout_until[email]` entry. -/
structure RateState where
  failedAttempts : List Int
  lockoutUntil : Option Int
deriving DecidableEq, Repr

/-- Outcome of `_check_rate_limit`.  Both failure constructors correspond to
`raise IMAPAuthenticationError(...)` in the Python code, distinguished by the
raise site and message: the first carries
"Try again in {remaining} seconds", the second
"Locked out for {lockout_minutes} minutes". -/
inductive RLOutcome where
  | lockedRemaining (remainingSeconds : Int)
  | lockedNow (minutes : Nat)
  | allowed
deriving DecidableEq, Repr

structure RLStep where
  outcome : RLOutcome
  rate : RateState
deriving DecidableEq, Repr

/-- `2 ** min(len(self._failed_attempts[email]) - 4, 6)` (line 862). -/
def lockoutMinutes (n : Nat) : Nat := 2 ^ min (n - 4) 6

/-- Lines 854-871 of `_check_rate_limit`: prune attempts older than 15 minutes,
then lock out when 5 or more remain. -/
def rlPrune (now : Int) (fa : List Int) (lu : Option Int) : RLStep :=
  let fa2 := fa.filter (fun a => now - 900 < a)
  if 5 ≤ fa2.length then
    let m := lockoutMinutes fa2.length
    ⟨.lockedNow m, ⟨fa2, some (now + 60 * m)⟩⟩
  else ⟨.allowed, ⟨fa2, lu⟩⟩

/-- `_check_rate_limit` for one email: the active-lockout test of lines
848-853 (`if email in self._lockout_until and now < self._lockout_until[email]`)
followed by the pruning / threshold logic. -/
def checkRateLimit (now : Int) (rs : RateState) : RLStep :=
  match rs.lockoutUntil with
  | some t =>
      if now < t then ⟨.lockedRemaining (t - now), rs⟩
      else rlPrune now rs.failedAttempts rs.lockoutUntil
  | none => rlPrune now rs.failedAttempts rs.lockoutUntil

/-! ## Sessions and the registry (`IMAPAuthenticator._sessions`)

The registry `self._sessions : dict[uuid.UUID, IMAPSessionInfo]` is modelled
as a list of `SessionInfo` in insertion order (Python dicts preserve insertion
order, which is the iteration order used by `min(...)` in the session-cap
logic); session ids are natural numbers.  The connection handle is modelled by
its presence (`Option Unit`). -/

inductive SessionState where
  | connecting
  | connected
  | disconnected
  | error
deriving DecidableEq, Repr

structure SessionInfo where
  sessionId : Nat
  email : String
  connection : Option Unit
  selectedFolder : Option String
  connectedAt : Int
  lastActivity : Int
  state : SessionState
  retryCount : Nat
deriving DecidableEq, Repr

/-- `self._sessions[sid]` lookup (`sid in self._sessions` / `get`). -/
def lookupSession (sessions : List SessionInfo) (sid : Nat) : Option SessionInfo :=
  sessions.find? (fun s => decide (s.sessionId = sid))

/-- `del self._sessions[sid]`: remove the entry with the given key. -/
def removeSession : List SessionInfo → Nat → List SessionInfo
  | [], _ => []
  | s :: rest, sid => if s.sessionId = sid then rest else s :: removeSession rest sid

/-- `self._sessions[s.session_id] = s`: overwrite in place when the key
exists (keeping its position, as Python dicts do), else append. -/
def setSession (sessions : List SessionInfo) (s : SessionInfo) : List SessionInfo :=
  if (lookupSession sessions s.sessionId).isSome then
    sessions.map (fun t => if t.sessionId = s.sessionId then s else t)
  else sessions ++ [s]

/-! ## `IMAPAuthenticator.disconnect` (lines 626-660)

The outcomes of the two wire calls `connection.close_folder()` and
`connection.logout()` are inputs of the model: `none` means the call returned
normally, `some k` that it raised an exception of kind `k`. -/

inductive ExnKind where
  | osError
  | timeoutError
  | imapClientError
  | otherExn
deriving DecidableEq, Repr

/-- Kinds caught by `except (OSError, TimeoutError, IMAPClientError)` inside
`disconnect` (the error is logged and swallowed). -/
def disconnectCatches : ExnKind → Bool
  | .otherExn => false
  | _ => true

/-- What a `disconnect` call can raise: `ValueError` for an unknown id, or an
exception from `close_folder`/`logout` that its handlers do not catch. -/
inductive DisconnectRaise where
  | valueErrorNotFound
  | uncaught (k : ExnKind)
deriving DecidableEq, Repr

structure DisconnectResult where
  raised : Option DisconnectRaise
  sessions : List SessionInfo
deriving DecidableEq, Repr

/-- The `logout` part of `disconnect`'s `try` body, after which the `finally`
block has already removed the entry (`removed`). -/
def logoutStep (removed : List SessionInfo) (logoutExn : Option ExnKind) : DisconnectResult :=
  match logoutExn with
  | some k => if disconnectCatches k then ⟨none, removed⟩ else ⟨some (.uncaught k), removed⟩
  | none => ⟨none, removed⟩

/-- `IMAPAuthenticator.disconnect`, translated: unknown id raises `ValueError`
with the registry untouched; otherwise `close_folder` (only when a folder is
selected and a connection exists) then `logout` run with their errors
swallowed when caught, and the `finally` block removes the registry entry on
every path.  (The state/connection mutation of the removed `session_info`
object is not observable through the registry and is not modelled.) -/
def pyDisconnect (sessions : List SessionInfo) (sid : Nat)
    (closeExn logoutExn : Option ExnKind) : DisconnectResult :=
  match lookupSession sessions sid with
  | none => ⟨some .valueErrorNotFound, sessions⟩
  | some s =>
    let removed := removeSession sessions sid
    if s.connection.isSome then
      match (if s.selectedFolder.isSome then closeExn else none) with
      | some k =>
        if disconnectCatches k then logoutStep removed logoutExn
        else ⟨some (.uncaught k), removed⟩
      | none => logoutStep removed logoutExn
    else ⟨none, removed⟩

/-! ## Session cap and registration (`authenticate`, lines 564-584) -/

/-- `min(active_sessions, key=lambda s: s.connected_at)`: Python's `min`
keeps the first element on ties. -/
def minByConnectedAt : List SessionInfo → Option SessionInfo
  | [] => none
  | x :: xs => some (xs.foldl (fun acc s => if s.connectedAt < acc.connectedAt then s else acc) x)

/-- Kinds caught by the `except (OSError, TimeoutError, IMAPClientError,
ValueError)` handler around the eviction `disconnect` call (line 580). -/
def evictCatches : DisconnectRaise → Bool
  | .valueErrorNotFound => true
  | .uncaught _ => false

structure StoreResult where
  raised : Option DisconnectRaise
  sessions : List SessionInfo
deriving DecidableEq, Repr

/-- Lines 564-584: collect the CONNECTED sessions of this email, disconnect
the oldest when the cap (5) is reached, then store the new session. -/
def sessionLimitAndStore (sessions : List SessionInfo) (email : String)
    (newS : SessionInfo) (closeExn logoutExn : Option ExnKind) : StoreResult :=
  let active := sessions.filter
    (fun s => decide (s.email = email ∧ s.state = SessionState.connected))
  if 5 ≤ active.length then
    match minByConnectedAt active with
    | some oldest =>
      let d := pyDisconnect sessions oldest.sessionId closeExn logoutExn
      match d.raised with
      | some r =>
        if evictCatches r then ⟨none, setSession d.sessions newS⟩
        else ⟨some r, d.sessions⟩
      | none => ⟨none, setSession d.sessions newS⟩
    | none => ⟨none, setSession sessions newS⟩
  else ⟨none, setSession sessions newS⟩

/-! ## `IMAPAuthenticator.authenticate` (lines 455-625)

Network behaviour is an input: `AuthEnv.attempt k` is what the `k`-th pass of
the retry loop observes on the wire, and `AuthEnv.time k` the wall-clock time
during that pass.  `networkOps` counts how many times a transport was opened
(each pass of the loop body opens one and sends a login). -/

inductive AttemptOutcome where
  /-- connection opened, `login` accepted and `noop` succeeded -/
  | success
  /-- `client.login` raised `IMAPClientError` (translated to
  `IMAPAuthenticationError` by the inner handler, lines 521-547) -/
  | loginRejected
  /-- `OSError` / `TimeoutError` during the attempt (handler at line 597) -/
  | netError
  /-- `IMAPClientError` outside `login`, e.g. from `noop` (line 619) -/
  | otherImapError
deriving DecidableEq, Repr

structure AuthEnv where
  attempt : Nat → AttemptOutcome
  time : Nat → Int
  closeExn : Option ExnKind
  logoutExn : Option ExnKind

inductive AuthOutcome where
  /-- `IMAPAuthenticationError` "Try again in N seconds" from
  `_check_rate_limit` (raised before the retry loop) -/
  | rateLimitRemaining (remainingSeconds : Int)
  /-- `IMAPAuthenticationError` "Locked out for N minutes" from
  `_check_rate_limit` (raised before the retry loop) -/
  | rateLimitLocked (minutes : Nat)
  /-- `IMAPAuthenticationError` re-raised by the handler at line 590 -/
  | authenticationError
  /-- `IMAPConnectionError` -/
  | connectionError
  /-- an exception from the eviction `disconnect` that no handler catches -/
  | unhandled (r : DisconnectRaise)
  | success (attempt : Nat)
deriving DecidableEq, Repr

structure AuthResult where
  outcome : AuthOutcome
  rate : RateState
  passwordCleared : Bool
  sessions : List SessionInfo
  networkOps : Nat
deriving Repr

/-- The retry loop `for attempt in range(5)` of `authenticate`.  On
`loginRejected` the handler at lines 590-596 appends one failure timestamp,
clears the password and re-raises (no retry); on `netError` it retries up to
attempt index 4 and then raises `IMAPConnectionError`; on success lines
551-584 clear the rate-limit history, run the session-cap logic and store the
session. -/
def authLoop (env : AuthEnv) (email : String) (newId : Nat) (fa : List Int)
    (lu : Option Int) (sessions : List SessionInfo) (attempt : Nat) : AuthResult :=
  match env.attempt attempt with
  | .loginRejected =>
      { outcome := .authenticationError
        rate := ⟨fa ++ [env.time attempt], lu⟩
        passwordCleared := true
        sessions := sessions
        networkOps := attempt + 1 }
  | .otherImapError =>
      { outcome := .connectionError, rate := ⟨fa, lu⟩, passwordCleared := false
        sessions := sessions, networkOps := attempt + 1 }
  | .netError =>
      if attempt < 4 then authLoop env email newId fa lu sessions (attempt + 1)
      else
        { outcome := .connectionError, rate := ⟨fa, lu⟩, passwordCleared := false
          sessions := sessions, networkOps := attempt + 1 }
  | .success =>
      let t := env.time attempt
      let newS : SessionInfo :=
        { sessionId := newId, email := email, connection := some ()
          selectedFolder := none, connectedAt := t, lastActivity := t
          state := .connected, retryCount := attempt }
      let st := sessionLimitAndStore sessions email newS env.closeExn env.logoutExn
      match st.raised with
      | some r =>
          { outcome := .unhandled r, rate := ⟨[], none⟩, passwordCleared := false
            sessions := st.sessions, networkOps := attempt + 1 }
      | none =>
          { outcome := .success attempt, rate := ⟨[], none⟩, passwordCleared := false
            sessions := st.sessions, networkOps := attempt + 1 }
termination_by 5 - attempt
decreasing_by omega

/-- `IMAPAuthenticator.authenticate` for one email: the rate-limit gate runs
first (outside the retry loop, so its raises bypass the failure-recording
handler), then the retry loop. -/
def authenticate (now : Int) (env : AuthEnv) (email : String) (newId : Nat)
    (rs : RateState) (sessions : List SessionInfo) : AuthResult :=
  let step := checkRateLimit now rs
  match step.outcome with
  | .lockedRemaining r =>
      { outcome := .rateLimitRemaining r, rate := step.rate
        passwordCleared := false, sessions := sessions, networkOps := 0 }
  | .lockedNow m =>
      { outcome := .rateLimitLocked m, rate := step.rate
        passwordCleared := false, sessions := sessions, networkOps := 0 }
  | .allowed =>
      authLoop env email newId step.rate.failedAttempts step.rate.lockoutUntil sessions 0

/-! ## Folder parsing (`EmailFolder.from_imap_response`, fetcher.py lines 76-117) -/

inductive FolderFlag where
  | sentFlag
  | draftsFlag
  | trashFlag
  | noselectFlag
  | otherFlag (n : Nat)
deriving DecidableEq, Repr

inductive FolderType where
  | inbox
  | sent
  | drafts
  | trash
  | system
  | label
deriving DecidableEq, Repr

structure EmailFolder where
  folderName : String
  displayName : String
  folderType : FolderType
  selectable : Bool
  delimiter : String
deriving DecidableEq, Repr

/-- A raw IMAP LIST response row `(flags, delimiter, name)`, with the
delimiter already decoded to a string. -/
structure RawFolder where
  flags : List FolderFlag
  delimiter : String
  name : String
deriving DecidableEq, Repr

/-- `EmailFolder.from_imap_response`: type inference order
INBOX → \Sent → \Drafts → \Trash → "[Gmail]" prefix → label; `selectable`
is the absence of \Noselect; the display name strips `"[Gmail]/"`
(Python's `str.replace` replaces every occurrence, as does
`String.replace`). -/
def fromImapResponse (r : RawFolder) : EmailFolder :=
  let folderType :=
    if r.name = "INBOX" then FolderType.inbox
    else if r.flags.contains .sentFlag then FolderType.sent
    else if r.flags.contains .draftsFlag then FolderType.drafts
    else if r.flags.contains .trashFlag then FolderType.trash
    else if r.name.startsWith "[Gmail]" then FolderType.system
    else FolderType.label
  let selectable := !r.flags.contains .noselectFlag
  let displayName :=
    if r.name.startsWith "[Gmail]/" then r.name.replace "[Gmail]/" "" else r.name
  { folderName := r.name, displayName := displayName, folderType := folderType
    selectable := selectable, delimiter := r.delimiter }

/-! ## `FolderManager.list_folders` and its cache (fetcher.py lines 120-228) -/

/-- `CacheEntry` for one session id (`ttl` is the fixed 10 minutes). -/
structure FolderCacheEntry where
  data : List EmailFolder
  createdAt : Int
deriving DecidableEq, Repr

/-- `CacheEntry.is_stale`: `datetime.now() - created_at > ttl` with
`ttl = timedelta(minutes=10)` = 600 seconds. -/
def cacheIsStale (now : Int) (e : FolderCacheEntry) : Bool :=
  decide (600 < now - e.createdAt)

inductive LFOutcome where
  /-- normal return of the folder list -/
  | ok (folders : List EmailFolder)
  /-- `ValueError("No active connection for session ...")` (line 203) -/
  | valueErrorNoConn
  /-- `IMAPSessionError` wrapping a failed list call (line 228) -/
  | sessionError
deriving DecidableEq, Repr

structure LFResult where
  outcome : LFOutcome
  cache : Option FolderCacheEntry
  listCalls : Nat
deriving DecidableEq, Repr

/-- The fetch path of `list_folders` (lines 200-228): look the session up,
require a connection handle, call the wire-level `list_folders` (whose result
is the input `raw`), parse, and replace the cache entry. -/
def listFoldersFetch (now : Int) (cache : Option FolderCacheEntry)
    (session : Option SessionInfo) (raw : Except Unit (List RawFolder)) : LFResult :=
  match session with
  | none => ⟨.valueErrorNoConn, cache, 0⟩
  | some s =>
    if s.connection.isSome then
      match raw with
      | .error _ => ⟨.sessionError, cache, 1⟩
      | .ok rows =>
        let folders := rows.map fromImapResponse
        ⟨.ok folders, some ⟨folders, now⟩, 1⟩
    else ⟨.valueErrorNoConn, cache, 0⟩

/-- `FolderManager.list_folders` for one session id: serve a fresh cache
entry unless `force_refresh`, else fetch.  `session` is the result of
`self._authenticator.get_session(session_id)` and `raw` the outcome of the
underlying wire call (`.error ()` standing for a caught
`OSError`/`UnicodeDecodeError`/`MessageError`). -/
def listFolders (now : Int) (forceRefresh : Bool) (cache : Option FolderCacheEntry)
    (session : Option SessionInfo) (raw : Except Unit (List RawFolder)) : LFResult :=
  if !forceRefresh then
    match cache with
    | some entry =>
      if !cacheIsStale now entry then ⟨.ok entry.data, cache, 0⟩
      else listFoldersFetch now cache session raw
    | none => listFoldersFetch now cache session raw
  else listFoldersFetch now cache session raw

/-! ## Adaptive chunking in `fetch_emails` (fetcher.py lines 388-433) -/

/-- `range(0, len(l), n)` slicing: split `l` into consecutive pieces of `n`
elements, the last one possibly shorter.  `n = 0` is outside the model's
domain (Python's `range` would raise `ValueError`). -/
def chunksOfAux {α : Type} (n : Nat) : Nat → List α → List (List α)
  | _, [] => []
  | 0, _ :: _ => []
  | fuel + 1, x :: xs =>
    (x :: xs).take n :: chunksOfAux n fuel ((x :: xs).drop n)

def chunksOf {α : Type} (n : Nat) (l : List α) : List (List α) :=
  if n = 0 then [] else chunksOfAux n l.length l

/-- `max(10, batch_size // 5)` (line 414). -/
def subChunkSize (batchSize : Nat) : Nat := max 10 (batchSize / 5)

/-- What `fetch_emails` does with one `batch_ids` chunk, as a plan: the flag
records whether the size metadata was probed (`fetch(batch_ids,
["RFC822.SIZE"])`), and the list holds the id-lists passed to
`_fetch_and_parse_batch`, in order.  `sizeOf` gives each message's
`RFC822.SIZE`; the float comparison `total/len > 100000` is the exact
rational comparison `100000 * len < total`. -/
def planChunk (sizeOf : Nat → Nat) (batchSize : Nat) (batch : List Nat) :
    Bool × List (List Nat) :=
  if 20 < batch.length then
    let total := (batch.map sizeOf).sum
    if 100000 * batch.length < total then
      (true, chunksOf (subChunkSize batchSize) batch)
    else (true, [batch])
  else (false, [batch])

/-- The batching front of `fetch_emails` (lines 377-433): keep the last
`limit` ids of the search result, split them into `batch_size` chunks and
plan each chunk. -/
def fetchEmailsPlan (sizeOf : Nat → Nat) (limit batchSize : Nat)
    (messageIds : List Nat) : List (Bool × List (List Nat)) :=
  let ids :=
    if limit < messageIds.length then messageIds.drop (messageIds.length - limit)
    else messageIds
  (chunksOf batchSize ids).map (planChunk sizeOf batchSize)

/-! ## Registry lemmas -/

theorem lookupSession_eq_none_of_not_mem (sessions : List SessionInfo) (sid : Nat)
    (h : sid ∉ sessions.map SessionInfo.sessionId) : lookupSession sessions sid = none := by
  induction sessions with
  | nil => rfl
  | cons x rest ih =>
    simp only [List.map_cons, List.mem_cons] at h
    push_neg at h
    simp only [lookupSession, List.find?_cons]
    rw [show (decide (x.sessionId = sid)) = false by simp [Ne.symm h.1]]
    exact ih h.2

theorem lookupSession_mem_self (sessions : List SessionInfo) (s : SessionInfo)
    (hnd : (sessions.map SessionInfo.sessionId).Nodup) (hs : s ∈ sessions) :
    lookupSession sessions s.sessionId = some s := by
  induction sessions with
  | nil => cases hs
  | cons x rest ih =>
    simp only [List.map_cons, List.nodup_cons] at hnd
    rcases List.mem_cons.mp hs with rfl | hmem
    · simp [lookupSession, List.find?_cons]
    · have hne : x.sessionId ≠ s.sessionId := by
        intro he
        exact hnd.1 (he ▸ List.mem_map_of_mem SessionInfo.sessionId hmem)
      simp only [lookupSession, List.find?_cons]
      rw [show (decide (x.sessionId = s.sessionId)) = false by simp [hne]]
      exact ih hnd.2 hmem

theorem mem_of_mem_removeSession (sessions : List SessionInfo) (sid : Nat)
    (s : SessionInfo) (h : s ∈ removeSession sessions sid) : s ∈ sessions := by
  induction sessions with
  | nil => cases h
  | cons x rest ih =>
    simp only [removeSession] at h
    split at h
    · exact List.mem_cons_of_mem x h
    · rcases List.mem_cons.mp h with rfl | hmem
      · exact List.mem_cons_self _ _
      · exact List.mem_cons_of_mem x (ih hmem)

theorem lookup_removeSession_self (sessions : List SessionInfo) (sid : Nat)
    (hnd : (sessions.map SessionInfo.sessionId).Nodup) :
    lookupSession (removeSession sessions sid) sid = none := by
  induction sessions with
  | nil => rfl
  | cons x rest ih =>
    simp only [List.map_cons, List.nodup_cons] at hnd
    by_cases hx : x.sessionId = sid
    · rw [removeSession, if_pos hx]
      exact lookupSession_eq_none_of_not_mem rest sid (hx ▸ hnd.1)
    · rw [removeSession, if_neg hx]
      simp only [lookupSession, List.find?_cons]
      rw [show (decide (x.sessionId = sid)) = false by simp [hx]]
      exact ih hnd.2

theorem lookup_removeSession_other (sessions : List SessionInfo) (sid j : Nat)
    (hj : j ≠ sid) :
    lookupSession (removeSession sessions sid) j = lookupSession sessions j := by
  induction sessions with
  | nil => rfl
  | cons x rest ih =>
    by_cases hx : x.sessionId = sid
    · rw [removeSession, if_pos hx]
      simp only [lookupSession, List.find?_cons]
      rw [show (decide (x.sessionId = j)) = false by simp [hx, Ne.symm hj]]
    · rw [removeSession, if_neg hx]
      by_cases hxj : x.sessionId = j
      · simp [lookupSession, List.find?_cons, hxj]
      · simp only [lookupSession, List.find?_cons]
        rw [show (decide (x.sessionId = j)) = false by simp [hxj]]
        exact ih

/-! ## `disconnect` lemmas and C5 -/

theorem logoutStep_sessions (r : List SessionInfo) (l : Option ExnKind) :
    (logoutStep r l).sessions = r := by
  unfold logoutStep
  rcases l with _ | k
  · rfl
  · dsimp only
    split <;> rfl

theorem pyDisconnect_sessions_of_found (sessions : List SessionInfo) (sid : Nat)
    (closeExn logoutExn : Option ExnKind) (s : SessionInfo)
    (hs : lookupSession sessions sid = some s) :
    (pyDisconnect sessions sid closeExn logoutExn).sessions = removeSession sessions sid := by
  unfold pyDisconnect
  rw [hs]
  dsimp only
  split
  · split
    · split
      · rw [logoutStep_sessions]
      · rfl
    · rw [logoutStep_sessions]
  · rfl

/-- C5: `disconnect` removes the registry entry of a present session id on
every execution path — whatever `close_folder` and `logout` do — and leaves
every other entry untouched; for an unknown id it raises `ValueError` and
leaves the registry unchanged. -/
theorem c5_disconnect_always_removes (sessions : List SessionInfo) (sid : Nat)
    (closeExn logoutExn : Option ExnKind)
    (hnd : (sessions.map SessionInfo.sessionId).Nodup) :
    ((lookupSession sessions sid).isSome →
      lookupSession (pyDisconnect sessions sid closeExn logoutExn).sessions sid = none ∧
      ∀ j, j ≠ sid →
        lookupSession (pyDisconnect sessions sid closeExn logoutExn).sessions j =
          lookupSession sessions j) ∧
    (lookupSession sessions sid = none →
      (pyDisconnect sessions sid closeExn logoutExn).raised = some .valueErrorNotFound ∧
      (pyDisconnect sessions sid closeExn logoutExn).sessions = sessions) := by
  constructor
  · intro hsome
    obtain ⟨s, hs⟩ := Option.isSome_iff_exists.mp hsome
    rw [pyDisconnect_sessions_of_found sessions sid closeExn logoutExn s hs]
    exact ⟨lookup_removeSession_self sessions sid hnd,
      fun j hj => lookup_removeSession_other sessions sid j hj⟩
  · intro hnone
    unfold pyDisconnect
    rw [hnone]
    exact ⟨rfl, rfl⟩

/-- C5 witness: a registered session with a selected folder whose
`close_folder` and `logout` both raise an exception kind that no handler
catches is still removed; looking up an absent id (9) raises `ValueError`
with the registry unchanged. -/
theorem c5_disconnect_always_removes_witness :
    (lookupSession
      (pyDisconnect
        [{ sessionId := 7, email := "user@gmail.com", connection := some ()
           selectedFolder := some "INBOX", connectedAt := 0, lastActivity := 0
           state := .connected, retryCount := 0 }] 7
        (some .otherExn) (some .otherExn)).sessions 7 = none) ∧
    (pyDisconnect
      [{ sessionId := 7, email := "user@gmail.com", connection := some ()
         selectedFolder := some "INBOX", connectedAt := 0, lastActivity := 0
         state := .connected, retryCount := 0 }] 9
      (some .otherExn) (some .otherExn)).raised = some .valueErrorNotFound := by
  refine ⟨((c5_disconnect_always_removes _ 7 _ _ ?_).1 ?_).1,
    ((c5_disconnect_always_removes _ 9 (some .otherExn) (some .otherExn) ?_).2 ?_).1⟩
  · simp
  · rfl
  · simp
  · rfl

/-! ## Lemmas for the session-cap logic -/

theorem lookupSession_append (l1 l2 : List SessionInfo) (j : Nat) :
    lookupSession (l1 ++ l2) j = (lookupSession l1 j).or (lookupSession l2 j) := by
  unfold lookupSession
  exact List.find?_append

theorem setSession_fresh (sessions : List SessionInfo) (s : SessionInfo)
    (h : lookupSession sessions s.sessionId = none) :
    setSession sessions s = sessions ++ [s] := by
  unfold setSession
  rw [h]
  rfl

theorem minByFold_mem (xs : List SessionInfo) (acc : SessionInfo) :
    xs.foldl (fun a s => if s.connectedAt < a.connectedAt then s else a) acc ∈ acc :: xs := by
  induction xs generalizing acc with
  | nil => exact List.mem_singleton.mpr rfl
  | cons x rest ih =>
    simp only [List.foldl_cons]
    rcases List.mem_cons.mp (ih (if x.connectedAt < acc.connectedAt then x else acc)) with h | h
    · rw [h]
      split
      · exact List.mem_cons_of_mem acc (List.mem_cons_self x rest)
      · exact List.mem_cons_self acc (x :: rest)
    · exact List.mem_cons_of_mem acc (List.mem_cons_of_mem x h)

theorem minByFold_le (xs : List SessionInfo) (acc : SessionInfo) :
    (xs.foldl (fun a s => if s.connectedAt < a.connectedAt then s else a) acc).connectedAt
        ≤ acc.connectedAt ∧
    ∀ s ∈ xs,
      (xs.foldl (fun a s => if s.connectedAt < a.connectedAt then s else a) acc).connectedAt
        ≤ s.connectedAt := by
  induction xs generalizing acc with
  | nil => exact ⟨le_refl _, fun s hs => absurd hs (List.not_mem_nil s)⟩
  | cons x rest ih =>
    simp only [List.foldl_cons]
    have hstep : (if x.connectedAt < acc.connectedAt then x else acc).connectedAt ≤ acc.connectedAt ∧
        (if x.connectedAt < acc.connectedAt then x else acc).connectedAt ≤ x.connectedAt := by
      split <;> omega
    obtain ⟨h1, h2⟩ := ih (if x.connectedAt < acc.connectedAt then x else acc)
    refine ⟨le_trans h1 hstep.1, ?_⟩
    intro s hs
    rcases List.mem_cons.mp hs with rfl | hmem
    · exact le_trans h1 hstep.2
    · exact h2 s hmem

theorem minByConnectedAt_unique (l : List SessionInfo) (oldest : SessionInfo)
    (hmem : oldest ∈ l)
    (hmin : ∀ s ∈ l, s ≠ oldest → oldest.connectedAt < s.connectedAt) :
    minByConnectedAt l = some oldest := by
  cases l with
  | nil => cases hmem
  | cons x xs =>
    unfold minByConnectedAt
    dsimp only
    congr 1
    set r := xs.foldl (fun a s => if s.connectedAt < a.connectedAt then s else a) x with hr
    have hrmem : r ∈ x :: xs := minByFold_mem xs x
    have hrle : r.connectedAt ≤ oldest.connectedAt := by
      obtain ⟨h1, h2⟩ := minByFold_le xs x
      rcases List.mem_cons.mp hmem with rfl | hm
      · exact h1
      · exact h2 oldest hm
    by_contra hne
    exact absurd (hmin r hrmem hne) (by omega)

theorem logoutStep_raised_none (r : List SessionInfo) (l : Option ExnKind)
    (hl : ∀ k, l = some k → disconnectCatches k = true) :
    (logoutStep r l).raised = none := by
  unfold logoutStep
  cases hlo : l with
  | none => rfl
  | some k =>
    dsimp only
    rw [if_pos (hl k hlo)]

theorem pyDisconnect_raised_none_of_caught (sessions : List SessionInfo) (sid : Nat)
    (closeExn logoutExn : Option ExnKind) (s : SessionInfo)
    (hs : lookupSession sessions sid = some s)
    (hc : ∀ k, closeExn = some k → disconnectCatches k = true)
    (hl : ∀ k, logoutExn = some k → disconnectCatches k = true) :
    (pyDisconnect sessions sid closeExn logoutExn).raised = none := by
  unfold pyDisconnect
  rw [hs]
  dsimp only
  have hcl : ∀ k, (if s.selectedFolder.isSome then closeExn else none) = some k →
      disconnectCatches k = true := by
    intro k hk
    by_cases hsel : s.selectedFolder.isSome
    · rw [if_pos hsel] at hk
      exact hc k hk
    · rw [if_neg hsel] at hk
      cases hk
  split
  · cases hce : (if s.selectedFolder.isSome then closeExn else none) with
    | none => exact logoutStep_raised_none _ _ hl
    | some k =>
      dsimp only
      rw [if_pos (hcl k hce)]
      exact logoutStep_raised_none _ _ hl
  · rfl

theorem authenticate_allowed (now : Int) (env : AuthEnv) (email : String)
    (newId : Nat) (rs : RateState) (sessions : List SessionInfo)
    (hallow : (checkRateLimit now rs).outcome = .allowed) :
    authenticate now env email newId rs sessions =
      authLoop env email newId (checkRateLimit now rs).rate.failedAttempts
        (checkRateLimit now rs).rate.lockoutUntil sessions 0 := by
  unfold authenticate
  dsimp only
  rw [hallow]

/-- C4: when `authenticate` succeeds for an email that already has 5 (the
cap) CONNECTED sessions, the single oldest of them (by `connected_at`) is
removed from the registry before the new session is registered under a fresh
id; every other session's registry entry — other emails and the newer
CONNECTED sessions of this email alike — is unchanged. -/
theorem c4_session_cap_evicts_oldest (now : Int) (env : AuthEnv) (email : String)
    (newId : Nat) (rs : RateState) (sessions : List SessionInfo) (oldest : SessionInfo)
    (hallow : (checkRateLimit now rs).outcome = .allowed)
    (hsucc : env.attempt 0 = .success)
    (hc : ∀ k, env.closeExn = some k → disconnectCatches k = true)
    (hl : ∀ k, env.logoutExn = some k → disconnectCatches k = true)
    (hnd : (sessions.map SessionInfo.sessionId).Nodup)
    (hfresh : ∀ s ∈ sessions, s.sessionId ≠ newId)
    (hactive : (sessions.filter
      (fun s => decide (s.email = email ∧ s.state = SessionState.connected))).length = 5)
    (hold : oldest ∈ sessions.filter
      (fun s => decide (s.email = email ∧ s.state = SessionState.connected)))
    (holdest : ∀ s ∈ sessions.filter
      (fun s => decide (s.email = email ∧ s.state = SessionState.connected)),
      s ≠ oldest → oldest.connectedAt < s.connectedAt) :
    (authenticate now env email newId rs sessions).outcome = .success 0 ∧
    lookupSession (authenticate now env email newId rs sessions).sessions
      oldest.sessionId = none ∧
    (∀ s ∈ sessions, s.sessionId ≠ oldest.sessionId →
      lookupSession (authenticate now env email newId rs sessions).sessions
        s.sessionId = some s) ∧
    lookupSession (authenticate now env email newId rs sessions).sessions newId =
      some { sessionId := newId, email := email, connection := some ()
             selectedFolder := none, connectedAt := env.time 0
             lastActivity := env.time 0, state := .connected, retryCount := 0 } := by
  have holdsess : oldest ∈ sessions := (List.mem_filter.mp hold).1
  have hlook : lookupSession sessions oldest.sessionId = some oldest :=
    lookupSession_mem_self sessions oldest hnd holdsess
  have hmin : minByConnectedAt (sessions.filter
      (fun s => decide (s.email = email ∧ s.state = SessionState.connected))) = some oldest :=
    minByConnectedAt_unique _ oldest hold holdest
  have hremoved : (pyDisconnect sessions oldest.sessionId env.closeExn env.logoutExn).sessions
      = removeSession sessions oldest.sessionId :=
    pyDisconnect_sessions_of_found sessions oldest.sessionId env.closeExn env.logoutExn
      oldest hlook
  have hraised : (pyDisconnect sessions oldest.sessionId env.closeExn env.logoutExn).raised
      = none :=
    pyDisconnect_raised_none_of_caught sessions oldest.sessionId env.closeExn env.logoutExn
      oldest hlook hc hl
  have hfreshRemoved :
      lookupSession (removeSession sessions oldest.sessionId) newId = none := by
    apply lookupSession_eq_none_of_not_mem
    intro hmem
    obtain ⟨s, hsmem, hseq⟩ := List.mem_map.mp hmem
    exact hfresh s (mem_of_mem_removeSession sessions oldest.sessionId s hsmem) hseq
  have hstore : sessionLimitAndStore sessions email
      { sessionId := newId, email := email, connection := some ()
        selectedFolder := none, connectedAt := env.time 0
        lastActivity := env.time 0, state := .connected, retryCount := 0 }
      env.closeExn env.logoutExn =
      ⟨none, removeSession sessions oldest.sessionId ++
        [{ sessionId := newId, email := email, connection := some ()
           selectedFolder := none, connectedAt := env.time 0
           lastActivity := env.time 0, state := .connected, retryCount := 0 }]⟩ := by
    have hge : 5 ≤ (sessions.filter
      (fun s => decide (s.email = email ∧ s.state = SessionState.connected))).length := by
      omega
    unfold sessionLimitAndStore
    dsimp only
    rw [if_pos hge]
    rw [hmin]
    dsimp only
    rw [hraised]
    dsimp only
    rw [hremoved, setSession_fresh _ _ hfreshRemoved]
  rw [authenticate_allowed now env email newId rs sessions hallow, authLoop, hsucc]
  dsimp only
  rw [hstore]
  dsimp only
  refine ⟨rfl, ?_, ?_, ?_⟩
  · rw [lookupSession_append, lookup_removeSession_self sessions oldest.sessionId hnd]
    have : lookupSession [{ sessionId := newId, email := email, connection := some ()
                            selectedFolder := none, connectedAt := env.time 0
                            lastActivity := env.time 0, state := .connected
                            retryCount := 0 }] oldest.sessionId = none := by
      apply lookupSession_eq_none_of_not_mem
      simp only [List.map_cons, List.map_nil, List.mem_singleton]
      exact fun h => hfresh oldest holdsess h
    rw [this]
    rfl
  · intro s hs hne
    rw [lookupSession_append, lookup_removeSession_other sessions oldest.sessionId
      s.sessionId hne, lookupSession_mem_self sessions s hnd hs]
    rfl
  · rw [lookupSession_append, hfreshRemoved]
    simp [lookupSession]

/-- A concrete CONNECTED session for the C4 witness registry. -/
def c4s (i : Nat) (em : String) (t : Int) : SessionInfo :=
  { sessionId := i, email := em, connection := some (), selectedFolder := none
    connectedAt := t, lastActivity := t, state := .connected, retryCount := 0 }

/-- Witness registry: five CONNECTED sessions of `a@gmail.com` (oldest id 1,
`connected_at` 10) and one even older session of `b@gmail.com`. -/
def c4Registry : List SessionInfo :=
  [c4s 1 "a@gmail.com" 10, c4s 2 "a@gmail.com" 20, c4s 3 "a@gmail.com" 30,
   c4s 4 "a@gmail.com" 40, c4s 5 "a@gmail.com" 50, c4s 6 "b@gmail.com" 5]

def c4Env : AuthEnv := ⟨fun _ => .success, fun _ => 0, none, none⟩

/-- C4 witness: a sixth login for `a@gmail.com` evicts exactly session 1;
the other account's (older!) session and the newer sessions survive, and the
new session is registered under the fresh id 99. -/
theorem c4_session_cap_evicts_oldest_witness :
    (authenticate 0 c4Env "a@gmail.com" 99 ⟨[], none⟩ c4Registry).outcome = .success 0 ∧
    lookupSession (authenticate 0 c4Env "a@gmail.com" 99 ⟨[], none⟩ c4Registry).sessions 1
      = none ∧
    (∀ s ∈ c4Registry, s.sessionId ≠ 1 →
      lookupSession (authenticate 0 c4Env "a@gmail.com" 99 ⟨[], none⟩ c4Registry).sessions
        s.sessionId = some s) ∧
    lookupSession (authenticate 0 c4Env "a@gmail.com" 99 ⟨[], none⟩ c4Registry).sessions 99
      = some { sessionId := 99, email := "a@gmail.com", connection := some ()
               selectedFolder := none, connectedAt := 0, lastActivity := 0
               state := .connected, retryCount := 0 } := by
  have h := c4_session_cap_evicts_oldest 0 c4Env "a@gmail.com" 99 ⟨[], none⟩
    c4Registry (c4s 1 "a@gmail.com" 10) rfl rfl
    (fun k hk => nomatch hk) (fun k hk => nomatch hk)
    (by decide) (by decide) (by decide) (by decide) (by decide)
  exact h

/-! ## Rate-limiter lemmas -/

theorem rlPrune_of_ge5 (now : Int) (fa : List Int) (lu : Option Int)
    (h : 5 ≤ (fa.filter (fun a => now - 900 < a)).length) :
    rlPrune now fa lu =
      ⟨.lockedNow (lockoutMinutes (fa.filter (fun a => now - 900 < a)).length),
       ⟨fa.filter (fun a => now - 900 < a),
        some (now + 60 * lockoutMinutes (fa.filter (fun a => now - 900 < a)).length)⟩⟩ := by
  simp only [rlPrune, if_pos h]

theorem rlPrune_of_lt5 (now : Int) (fa : List Int) (lu : Option Int)
    (h : (fa.filter (fun a => now - 900 < a)).length < 5) :
    rlPrune now fa lu = ⟨.allowed, ⟨fa.filter (fun a => now - 900 < a), lu⟩⟩ := by
  simp only [rlPrune, if_neg (by omega : ¬ 5 ≤ (fa.filter (fun a => now - 900 < a)).length)]

theorem checkRateLimit_active (now : Int) (rs : RateState) (t : Int)
    (hlu : rs.lockoutUntil = some t) (hlt : now < t) :
    checkRateLimit now rs = ⟨.lockedRemaining (t - now), rs⟩ := by
  simp only [checkRateLimit, hlu, if_pos hlt]

theorem checkRateLimit_inactive (now : Int) (rs : RateState)
    (h : rs.lockoutUntil = none ∨ ∃ t, rs.lockoutUntil = some t ∧ t ≤ now) :
    checkRateLimit now rs = rlPrune now rs.failedAttempts rs.lockoutUntil := by
  rcases h with h | ⟨t, hlu, hle⟩
  · simp only [checkRateLimit, h]
  · simp only [checkRateLimit, hlu, if_neg (by omega : ¬ now < t)]

/-- C2: for every failure count `n ≥ 5` inside the 15-minute window the
lockout computed by `_check_rate_limit` is `2^(min(n-4, 6))` minutes and the
expiry is set `n`-dependently to `now` plus that duration; the lockout for 6
failures strictly exceeds the one for 5, and the lockout never exceeds 64
minutes for any failure count. -/
theorem c2_lockout_duration :
    (∀ (now : Int) (fa : List Int) (lu : Option Int),
      (lu = none ∨ ∃ t, lu = some t ∧ t ≤ now) →
      5 ≤ (fa.filter (fun a => now - 900 < a)).length →
      checkRateLimit now ⟨fa, lu⟩ =
        ⟨.lockedNow (2 ^ min ((fa.filter (fun a => now - 900 < a)).length - 4) 6),
         ⟨fa.filter (fun a => now - 900 < a),
          some (now + 60 * (2 ^ min ((fa.filter (fun a => now - 900 < a)).length - 4) 6 : Nat))⟩⟩) ∧
    lockoutMinutes 5 < lockoutMinutes 6 ∧
    (∀ n : Nat, lockoutMinutes n ≤ 64) := by
  refine ⟨?_, by decide, ?_⟩
  · intro now fa lu hlu h5
    rw [checkRateLimit_inactive now ⟨fa, lu⟩ hlu, rlPrune_of_ge5 now fa lu h5]
    rfl
  · intro n
    have h6 : min (n - 4) 6 ≤ 6 := min_le_right _ _
    calc lockoutMinutes n = 2 ^ min (n - 4) 6 := rfl
    _ ≤ 2 ^ 6 := Nat.pow_le_pow_right (by omega) h6
    _ = 64 := rfl

/-- C2 witness: with 5 in-window failures and no lockout entry, the 6th check
locks out for `2^(min(5-4,6)) = 2` minutes. -/
theorem c2_lockout_duration_witness :
    checkRateLimit 0 ⟨[-1, -2, -3, -4, -5], none⟩ =
      ⟨.lockedNow (2 ^ min ((([-1, -2, -3, -4, -5] : List Int).filter
          (fun a => (0 : Int) - 900 < a)).length - 4) 6),
       ⟨([-1, -2, -3, -4, -5] : List Int).filter (fun a => (0 : Int) - 900 < a),
        some (0 + 60 * (2 ^ min ((([-1, -2, -3, -4, -5] : List Int).filter
          (fun a => (0 : Int) - 900 < a)).length - 4) 6 : Nat))⟩⟩ :=
  c2_lockout_duration.1 0 [-1, -2, -3, -4, -5] none (Or.inl rfl) (by decide)

/-- C1: with an active lockout or at least 5 in-window failures,
`authenticate` fails before any network I/O with the rate-limit
`IMAPAuthenticationError` carrying the remaining wait (remaining seconds of
an active lockout, or the freshly computed lockout whose expiry is `now` plus
the stated minutes), and the session registry is untouched. -/
theorem c1_rate_limited_fails_fast (now : Int) (env : AuthEnv) (email : String)
    (newId : Nat) (rs : RateState) (sessions : List SessionInfo)
    (h : (∃ t, rs.lockoutUntil = some t ∧ now < t) ∨
         5 ≤ (rs.failedAttempts.filter (fun a => now - 900 < a)).length) :
    (authenticate now env email newId rs sessions).networkOps = 0 ∧
    (authenticate now env email newId rs sessions).sessions = sessions ∧
    ((∃ t, rs.lockoutUntil = some t ∧ now < t ∧
        (authenticate now env email newId rs sessions).outcome =
          .rateLimitRemaining (t - now)) ∨
     (∃ m, (authenticate now env email newId rs sessions).outcome = .rateLimitLocked m ∧
        (authenticate now env email newId rs sessions).rate.lockoutUntil =
          some (now + 60 * m))) := by
  by_cases hact : ∃ t, rs.lockoutUntil = some t ∧ now < t
  · obtain ⟨t, hlu, hlt⟩ := hact
    rw [authenticate, checkRateLimit_active now rs t hlu hlt]
    exact ⟨rfl, rfl, Or.inl ⟨t, hlu, hlt, rfl⟩⟩
  · have h5 : 5 ≤ (rs.failedAttempts.filter (fun a => now - 900 < a)).length := by
      rcases h with h | h
      · exact absurd h hact
      · exact h
    have hin : rs.lockoutUntil = none ∨ ∃ t, rs.lockoutUntil = some t ∧ t ≤ now := by
      rcases hlu : rs.lockoutUntil with _ | t
      · exact Or.inl rfl
      · refine Or.inr ⟨t, rfl, ?_⟩
        by_contra hgt
        exact hact ⟨t, hlu, by omega⟩
    rw [authenticate, checkRateLimit_inactive now rs hin,
      rlPrune_of_ge5 now rs.failedAttempts rs.lockoutUntil h5]
    exact ⟨rfl, rfl, Or.inr ⟨_, rfl, rfl⟩⟩

/-- C1 witness: active lockout until t = 30 at now = 0 with 5 recent
failures: no network I/O and a rate-limit failure. -/
theorem c1_rate_limited_fails_fast_witness :
    (authenticate 0 ⟨fun _ => .success, fun _ => 0, none, none⟩ "user@gmail.com" 1
      ⟨[-1, -2, -3, -4, -5], some 30⟩ []).networkOps = 0 ∧
    (authenticate 0 ⟨fun _ => .success, fun _ => 0, none, none⟩ "user@gmail.com" 1
      ⟨[-1, -2, -3, -4, -5], some 30⟩ []).sessions = [] ∧
    ((∃ t, (some (30 : Int)) = some t ∧ (0 : Int) < t ∧
        (authenticate 0 ⟨fun _ => .success, fun _ => 0, none, none⟩ "user@gmail.com" 1
          ⟨[-1, -2, -3, -4, -5], some 30⟩ []).outcome = .rateLimitRemaining (t - 0)) ∨
     (∃ m, (authenticate 0 ⟨fun _ => .success, fun _ => 0, none, none⟩ "user@gmail.com" 1
          ⟨[-1, -2, -3, -4, -5], some 30⟩ []).outcome = .rateLimitLocked m ∧
        (authenticate 0 ⟨fun _ => .success, fun _ => 0, none, none⟩ "user@gmail.com" 1
          ⟨[-1, -2, -3, -4, -5], some 30⟩ []).rate.lockoutUntil = some (0 + 60 * m))) :=
  c1_rate_limited_fails_fast 0 ⟨fun _ => .success, fun _ => 0, none, none⟩
    "user@gmail.com" 1 ⟨[-1, -2, -3, -4, -5], some 30⟩ []
    (Or.inl ⟨30, rfl, by decide⟩)

/-- C10 counterexample: with 5 in-window failures and a still-active lockout
(expiry 100, now 0), the blocked `authenticate` call leaves the lockout
expiry at 100 instead of overwriting it with
`now + 60 * lockoutMinutes 5 = 120`: the claim's "every authenticate call ...
overwrites the lockout expiry" is false during an active lockout. -/
theorem c10_counterexample :
    5 ≤ (([-1, -1, -1, -1, -1] : List Int).filter (fun a => (0 : Int) - 900 < a)).length ∧
    (authenticate 0 ⟨fun _ => .success, fun _ => 0, none, none⟩ "user@gmail.com" 1
      ⟨[-1, -1, -1, -1, -1], some 100⟩ []).rate.lockoutUntil = some 100 ∧
    (authenticate 0 ⟨fun _ => .success, fun _ => 0, none, none⟩ "user@gmail.com" 1
      ⟨[-1, -1, -1, -1, -1], some 100⟩ []).rate.lockoutUntil ≠
      some ((0 : Int) + 60 * (lockoutMinutes 5 : Nat)) := by
  refine ⟨by decide, ?_, ?_⟩
  · rw [authenticate, checkRateLimit_active 0 _ 100 rfl (by decide)]
  · rw [authenticate, checkRateLimit_active 0 _ 100 rfl (by decide)]
    simp [lockoutMinutes]

/-- C10 (amended): for every email with at least 5 in-window failure
timestamps, every `authenticate` call raises before any network I/O and
appends no failure timestamp; when no lockout is active (in particular after
a previous lockout expired) the call overwrites the lockout expiry to `now`
plus the computed duration, re-arming the lockout, while during an active
lockout the rate state is left entirely unchanged. -/
theorem c10_rearm_amended (now : Int) (env : AuthEnv) (email : String)
    (newId : Nat) (fa : List Int) (lu : Option Int) (sessions : List SessionInfo)
    (h5 : 5 ≤ (fa.filter (fun a => now - 900 < a)).length) :
    (authenticate now env email newId ⟨fa, lu⟩ sessions).networkOps = 0 ∧
    (authenticate now env email newId ⟨fa, lu⟩ sessions).sessions = sessions ∧
    (∀ t, lu = some t → now < t →
      (authenticate now env email newId ⟨fa, lu⟩ sessions).rate = ⟨fa, lu⟩ ∧
      (authenticate now env email newId ⟨fa, lu⟩ sessions).outcome =
        .rateLimitRemaining (t - now)) ∧
    ((lu = none ∨ ∃ t, lu = some t ∧ t ≤ now) →
      (authenticate now env email newId ⟨fa, lu⟩ sessions).rate.failedAttempts =
        fa.filter (fun a => now - 900 < a) ∧
      (authenticate now env email newId ⟨fa, lu⟩ sessions).rate.lockoutUntil =
        some (now + 60 * (lockoutMinutes (fa.filter (fun a => now - 900 < a)).length : Nat)) ∧
      (authenticate now env email newId ⟨fa, lu⟩ sessions).outcome =
        .rateLimitLocked (lockoutMinutes (fa.filter (fun a => now - 900 < a)).length)) := by
  by_cases hact : ∃ t, lu = some t ∧ now < t
  · obtain ⟨t, hlu, hlt⟩ := hact
    rw [authenticate, checkRateLimit_active now _ t hlu hlt]
    refine ⟨rfl, rfl, ?_, ?_⟩
    · intro t2 hlu2 _
      rw [hlu] at hlu2
      cases hlu2
      exact ⟨rfl, rfl⟩
    · rintro (hn | ⟨t2, hlu2, hle⟩)
      · rw [hlu] at hn; cases hn
      · rw [hlu] at hlu2; cases hlu2; omega
  · have hin : lu = none ∨ ∃ t, lu = some t ∧ t ≤ now := by
      rcases hlu : lu with _ | t
      · exact Or.inl rfl
      · refine Or.inr ⟨t, rfl, ?_⟩
        by_contra hgt
        exact hact ⟨t, hlu, by omega⟩
    rw [authenticate, checkRateLimit_inactive now ⟨fa, lu⟩ hin, rlPrune_of_ge5 now fa lu h5]
    refine ⟨rfl, rfl, ?_, fun _ => ⟨rfl, rfl, rfl⟩⟩
    intro t hlu hlt
    exact absurd ⟨t, hlu, hlt⟩ hact

/-- C10 (amended) witness: expired lockout (expiry -5 at now 0) with 5
in-window failures: the call is blocked with no network I/O and the expiry is
re-armed to 120. -/
theorem c10_rearm_amended_witness :
    (authenticate 0 ⟨fun _ => .success, fun _ => 0, none, none⟩ "user@gmail.com" 1
      ⟨[-1, -1, -1, -1, -1], some (-5)⟩ []).networkOps = 0 ∧
    (authenticate 0 ⟨fun _ => .success, fun _ => 0, none, none⟩ "user@gmail.com" 1
      ⟨[-1, -1, -1, -1, -1], some (-5)⟩ []).rate.lockoutUntil =
      some ((0 : Int) + 60 * (lockoutMinutes
        (([-1, -1, -1, -1, -1] : List Int).filter (fun a => (0 : Int) - 900 < a)).length : Nat)) := by
  have h := c10_rearm_amended 0 ⟨fun _ => .success, fun _ => 0, none, none⟩
    "user@gmail.com" 1 [-1, -1, -1, -1, -1] (some (-5)) [] (by decide)
  exact ⟨h.1, (h.2.2.2 (Or.inr ⟨-5, rfl, by decide⟩)).2.1⟩

/-! ## The retry loop -/

theorem authLoop_rejected_after_net (env : AuthEnv) (email : String) (newId : Nat)
    (fa : List Int) (lu : Option Int) (sessions : List SessionInfo) (k : Nat)
    (hk : k < 5) (hrej : env.attempt k = .loginRejected) :
    ∀ (d a : Nat), a + d = k → (∀ j, a ≤ j → j < k → env.attempt j = .netError) →
    authLoop env email newId fa lu sessions a =
      { outcome := .authenticationError, rate := ⟨fa ++ [env.time k], lu⟩
        passwordCleared := true, sessions := sessions, networkOps := k + 1 } := by
  intro d
  induction d with
  | zero =>
    intro a ha _
    have : a = k := by omega
    subst this
    rw [authLoop, hrej]
  | succ d ih =>
    intro a ha hnet
    have hlt : a < k := by omega
    have h4 : a < 4 := by omega
    rw [authLoop, hnet a (by omega) hlt]
    simp only [if_pos h4]
    exact ih (a + 1) (by omega) (fun j hj1 hj2 => hnet j (by omega) hj2)

/-- C3: when the server rejects the login at protocol level on attempt `k`
(after transport errors on the earlier attempts), `authenticate` does not
retry: it performs no further network attempt, appends exactly one failure
timestamp to the (pruned) rate-limit record, clears the password, leaves the
registry untouched and fails with `IMAPAuthenticationError`. -/
theorem c3_login_rejected_no_retry (now : Int) (env : AuthEnv) (email : String)
    (newId : Nat) (rs : RateState) (sessions : List SessionInfo) (k : Nat)
    (hallow : (checkRateLimit now rs).outcome = .allowed)
    (hk : k < 5) (hrej : env.attempt k = .loginRejected)
    (hnet : ∀ j, j < k → env.attempt j = .netError) :
    (authenticate now env email newId rs sessions).outcome = .authenticationError ∧
    (authenticate now env email newId rs sessions).rate.failedAttempts =
      (checkRateLimit now rs).rate.failedAttempts ++ [env.time k] ∧
    (authenticate now env email newId rs sessions).rate.lockoutUntil =
      (checkRateLimit now rs).rate.lockoutUntil ∧
    (authenticate now env email newId rs sessions).passwordCleared = true ∧
    (authenticate now env email newId rs sessions).networkOps = k + 1 ∧
    (authenticate now env email newId rs sessions).sessions = sessions := by
  have hloop := authLoop_rejected_after_net env email newId
    (checkRateLimit now rs).rate.failedAttempts (checkRateLimit now rs).rate.lockoutUntil
    sessions k hk hrej k 0 (by omega) (fun j hj1 hj2 => hnet j hj2)
  rw [authenticate_allowed now env email newId rs sessions hallow, hloop]
  exact ⟨rfl, rfl, rfl, rfl, rfl, rfl⟩

/-- C3 witness: rejection on the very first attempt at time 3: one failure
timestamp appended, password cleared, one network attempt. -/
theorem c3_login_rejected_no_retry_witness :
    (authenticate 0 ⟨fun _ => .loginRejected, fun _ => 3, none, none⟩ "user@gmail.com" 1
      ⟨[-100], none⟩ []).outcome = .authenticationError ∧
    (authenticate 0 ⟨fun _ => .loginRejected, fun _ => 3, none, none⟩ "user@gmail.com" 1
      ⟨[-100], none⟩ []).rate.failedAttempts =
      (checkRateLimit 0 ⟨[-100], none⟩).rate.failedAttempts ++ [(3 : Int)] ∧
    (authenticate 0 ⟨fun _ => .loginRejected, fun _ => 3, none, none⟩ "user@gmail.com" 1
      ⟨[-100], none⟩ []).rate.lockoutUntil = (checkRateLimit 0 ⟨[-100], none⟩).rate.lockoutUntil ∧
    (authenticate 0 ⟨fun _ => .loginRejected, fun _ => 3, none, none⟩ "user@gmail.com" 1
      ⟨[-100], none⟩ []).passwordCleared = true ∧
    (authenticate 0 ⟨fun _ => .loginRejected, fun _ => 3, none, none⟩ "user@gmail.com" 1
      ⟨[-100], none⟩ []).networkOps = 0 + 1 ∧
    (authenticate 0 ⟨fun _ => .loginRejected, fun _ => 3, none, none⟩ "user@gmail.com" 1
      ⟨[-100], none⟩ []).sessions = [] :=
  c3_login_rejected_no_retry 0 ⟨fun _ => .loginRejected, fun _ => 3, none, none⟩
    "user@gmail.com" 1 ⟨[-100], none⟩ [] 0 (by decide) (by decide) rfl
    (fun j hj => absurd hj (Nat.not_lt_zero j))

/-! ## Chunking lemmas and C9 -/

theorem chunksOfAux_flatten {α : Type} (n : Nat) (hn : 0 < n) :
    ∀ (fuel : Nat) (l : List α), l.length ≤ fuel → (chunksOfAux n fuel l).flatten = l := by
  intro fuel
  induction fuel with
  | zero =>
    intro l hl
    have : l = [] := List.eq_nil_of_length_eq_zero (by omega)
    subst this
    rfl
  | succ f ih =>
    intro l hl
    cases l with
    | nil => rfl
    | cons x xs =>
      simp only [chunksOfAux, List.flatten_cons]
      rw [ih _ (by simp only [List.length_cons] at hl; simp only [List.length_drop, List.length_cons]; omega)]
      exact List.take_append_drop n (x :: xs)

theorem chunksOfAux_nil {α : Type} (n fuel : Nat) :
    chunksOfAux n fuel ([] : List α) = [] := by
  cases fuel <;> rfl

theorem chunksOfAux_mem {α : Type} (n : Nat) (hn : 0 < n) :
    ∀ (fuel : Nat) (l : List α) (c : List α), l.length ≤ fuel →
      c ∈ chunksOfAux n fuel l → c.length ≤ n ∧ c ≠ [] := by
  intro fuel
  induction fuel with
  | zero =>
    intro l c hl hc
    have : l = [] := List.eq_nil_of_length_eq_zero (by omega)
    subst this
    cases hc
  | succ f ih =>
    intro l c hl hc
    cases l with
    | nil => cases hc
    | cons x xs =>
      simp only [chunksOfAux] at hc
      rcases List.mem_cons.mp hc with rfl | hmem
      · constructor
        · simp only [List.length_take]
          omega
        · cases n with
          | zero => omega
          | succ m => simp [List.take]
      · exact ih _ c (by simp only [List.length_cons] at hl; simp only [List.length_drop, List.length_cons]; omega) hmem

theorem chunksOfAux_dropLast {α : Type} (n : Nat) (hn : 0 < n) :
    ∀ (fuel : Nat) (l : List α) (c : List α), l.length ≤ fuel →
      c ∈ (chunksOfAux n fuel l).dropLast → c.length = n := by
  intro fuel
  induction fuel with
  | zero =>
    intro l c hl hc
    have : l = [] := List.eq_nil_of_length_eq_zero (by omega)
    subst this
    cases hc
  | succ f ih =>
    intro l c hl hc
    cases l with
    | nil => cases hc
    | cons x xs =>
      simp only [chunksOfAux] at hc
      by_cases hrest : chunksOfAux n f ((x :: xs).drop n) = []
      · rw [hrest] at hc
        cases hc
      · rw [List.dropLast_cons_of_ne_nil hrest] at hc
        rcases List.mem_cons.mp hc with rfl | hmem
        · have hdrop : ((x :: xs).drop n) ≠ [] := by
            intro h0
            exact hrest (h0 ▸ chunksOfAux_nil n f)
          have hlen : n < (x :: xs).length := by
            have hpos : 0 < ((x :: xs).drop n).length := List.length_pos.mpr hdrop
            simp only [List.length_drop] at hpos
            omega
          simp only [List.length_take]
          omega
        · exact ih _ c (by simp only [List.length_cons] at hl; simp only [List.length_drop, List.length_cons]; omega) hmem

theorem chunksOf_eq_aux {α : Type} (n : Nat) (hn : 0 < n) (l : List α) :
    chunksOf n l = chunksOfAux n l.length l := by
  rw [chunksOf, if_neg (by omega)]

theorem chunksOf_flatten {α : Type} (n : Nat) (hn : 0 < n) (l : List α) :
    (chunksOf n l).flatten = l := by
  rw [chunksOf_eq_aux n hn l]
  exact chunksOfAux_flatten n hn l.length l (le_refl _)

theorem chunksOf_mem {α : Type} (n : Nat) (hn : 0 < n) (l c : List α)
    (hc : c ∈ chunksOf n l) : c.length ≤ n ∧ c ≠ [] := by
  rw [chunksOf_eq_aux n hn l] at hc
  exact chunksOfAux_mem n hn l.length l c (le_refl _) hc

theorem chunksOf_dropLast {α : Type} (n : Nat) (hn : 0 < n) (l c : List α)
    (hc : c ∈ (chunksOf n l).dropLast) : c.length = n := by
  rw [chunksOf_eq_aux n hn l] at hc
  exact chunksOfAux_dropLast n hn l.length l c (le_refl _) hc

/-- C9: every chunk `fetch_emails` forms has `batch_size` ids (last one
smaller); a chunk of more than 20 ids is size-probed, and re-split into
sub-chunks of exactly `max(10, batch_size // 5)` ids (the last possibly
smaller, none empty, together exactly the chunk) precisely when its average
probed size exceeds 100 KB; a chunk of at most 20 ids is neither probed nor
re-split and is fetched as one batch. -/
theorem c9_adaptive_chunking :
    ∀ (sizeOf : Nat → Nat) (limit batchSize : Nat) (ids : List Nat), 0 < batchSize →
    ∀ pr ∈ fetchEmailsPlan sizeOf limit batchSize ids,
    ∃ chunk ∈ chunksOf batchSize
        (if limit < ids.length then ids.drop (ids.length - limit) else ids),
      pr = planChunk sizeOf batchSize chunk ∧
      (chunk.length ≤ 20 → pr = (false, [chunk])) ∧
      (20 < chunk.length →
        pr.1 = true ∧
        (100000 * chunk.length < (chunk.map sizeOf).sum →
          pr.2 = chunksOf (subChunkSize batchSize) chunk ∧
          (∀ sub ∈ pr.2, sub.length ≤ subChunkSize batchSize ∧ sub ≠ []) ∧
          (∀ sub ∈ pr.2.dropLast, sub.length = subChunkSize batchSize) ∧
          pr.2.flatten = chunk) ∧
        ((chunk.map sizeOf).sum ≤ 100000 * chunk.length → pr.2 = [chunk])) := by
  intro sizeOf limit batchSize ids hbs pr hpr
  unfold fetchEmailsPlan at hpr
  dsimp only at hpr
  obtain ⟨chunk, hmem, rfl⟩ := List.mem_map.mp hpr
  have hsub : 0 < subChunkSize batchSize := by
    unfold subChunkSize
    omega
  refine ⟨chunk, hmem, rfl, ?_, ?_⟩
  · intro h20
    unfold planChunk
    rw [if_neg (by omega)]
  · intro h20
    unfold planChunk
    rw [if_pos h20]
    dsimp only
    by_cases havg : 100000 * chunk.length < (chunk.map sizeOf).sum
    · rw [if_pos havg]
      refine ⟨rfl, fun _ => ⟨rfl, ?_, ?_, ?_⟩, fun hle => absurd havg (by omega)⟩
      · exact fun sub hs => chunksOf_mem (subChunkSize batchSize) hsub chunk sub hs
      · exact fun sub hs => chunksOf_dropLast (subChunkSize batchSize) hsub chunk sub hs
      · exact chunksOf_flatten (subChunkSize batchSize) hsub chunk
    · rw [if_neg havg]
      exact ⟨rfl, fun hlt => absurd hlt havg, fun _ => rfl⟩

/-- C9 witness: 25 ids of 200 KB each with `batch_size` 50: the single
25-id chunk is probed and re-split into sub-chunks of
`max(10, 50 // 5) = 10`. -/
theorem c9_adaptive_chunking_witness :
    ∃ chunk ∈ chunksOf 50
        (if 100 < (List.range 25).length
         then (List.range 25).drop ((List.range 25).length - 100)
         else List.range 25),
      ((true, chunksOf 10 (List.range 25)) : Bool × List (List Nat)) =
        planChunk (fun _ => 200000) 50 chunk ∧
      (chunk.length ≤ 20 →
        ((true, chunksOf 10 (List.range 25)) : Bool × List (List Nat)) = (false, [chunk])) ∧
      (20 < chunk.length →
        ((true, chunksOf 10 (List.range 25)) : Bool × List (List Nat)).1 = true ∧
        (100000 * chunk.length < (chunk.map (fun _ => 200000)).sum →
          ((true, chunksOf 10 (List.range 25)) : Bool × List (List Nat)).2 =
            chunksOf (subChunkSize 50) chunk ∧
          (∀ sub ∈ ((true, chunksOf 10 (List.range 25)) : Bool × List (List Nat)).2,
            sub.length ≤ subChunkSize 50 ∧ sub ≠ []) ∧
          (∀ sub ∈ ((true, chunksOf 10 (List.range 25)) : Bool × List (List Nat)).2.dropLast,
            sub.length = subChunkSize 50) ∧
          ((true, chunksOf 10 (List.range 25)) : Bool × List (List Nat)).2.flatten = chunk) ∧
        ((chunk.map (fun _ => 200000)).sum ≤ 100000 * chunk.length →
          ((true, chunksOf 10 (List.range 25)) : Bool × List (List Nat)).2 = [chunk])) :=
  c9_adaptive_chunking (fun _ => 200000) 100 50 (List.range 25) (by decide)
    (true, chunksOf 10 (List.range 25)) (by decide)

/-! ## `list_folders` lemmas, C7 and C8 -/

theorem listFolders_fetch_path (now : Int) (forceRefresh : Bool)
    (cache : Option FolderCacheEntry) (session : Option SessionInfo)
    (raw : Except Unit (List RawFolder))
    (h : forceRefresh = true ∨ cache = none ∨
         ∃ e, cache = some e ∧ cacheIsStale now e = true) :
    listFolders now forceRefresh cache session raw =
      listFoldersFetch now cache session raw := by
  rcases h with rfl | rfl | ⟨e, rfl, hstale⟩
  · rfl
  · cases forceRefresh <;> rfl
  · cases forceRefresh with
    | false =>
      unfold listFolders
      dsimp only
      rw [hstale]
      rfl
    | true => rfl

theorem listFoldersFetch_live (now : Int) (cache : Option FolderCacheEntry)
    (si : SessionInfo) (rows : List RawFolder)
    (hconn : si.connection.isSome = true) :
    listFoldersFetch now cache (some si) (.ok rows) =
      ⟨.ok (rows.map fromImapResponse), some ⟨rows.map fromImapResponse, now⟩, 1⟩ := by
  unfold listFoldersFetch
  dsimp only
  rw [hconn]
  rfl

/-- C7: a `list_folders` call served while the cache entry is younger than
10 minutes and `force_refresh` is false performs no underlying list call and
returns the cached data unchanged, so two calls less than 10 minutes apart
issue exactly one list call; once the entry is older than 10 minutes, or
with `force_refresh`, a live session issues a new list call and the cache
entry is replaced by the freshly parsed result. -/
theorem c7_folder_cache :
    (∀ (t1 t2 : Int) (si : SessionInfo) (s2 : Option SessionInfo)
       (rows : List RawFolder) (raw2 : Except Unit (List RawFolder)),
      si.connection.isSome = true →
      t2 - t1 < 600 →
      (listFolders t1 false none (some si) (.ok rows)).listCalls = 1 ∧
      listFolders t2 false (listFolders t1 false none (some si) (.ok rows)).cache s2 raw2 =
        ⟨.ok (rows.map fromImapResponse), some ⟨rows.map fromImapResponse, t1⟩, 0⟩) ∧
    (∀ (now : Int) (forceRefresh : Bool) (cache : Option FolderCacheEntry)
       (si : SessionInfo) (rows : List RawFolder),
      si.connection.isSome = true →
      (forceRefresh = true ∨ ∃ e, cache = some e ∧ 600 < now - e.createdAt) →
      listFolders now forceRefresh cache (some si) (.ok rows) =
        ⟨.ok (rows.map fromImapResponse), some ⟨rows.map fromImapResponse, now⟩, 1⟩) := by
  constructor
  · intro t1 t2 si s2 rows raw2 hconn hlt
    have h1 : listFolders t1 false none (some si) (.ok rows) =
        ⟨.ok (rows.map fromImapResponse), some ⟨rows.map fromImapResponse, t1⟩, 1⟩ := by
      rw [listFolders_fetch_path t1 false none (some si) (.ok rows) (Or.inr (Or.inl rfl)),
        listFoldersFetch_live t1 none si rows hconn]
    refine ⟨by rw [h1], ?_⟩
    rw [h1]
    unfold listFolders
    dsimp only
    rw [show cacheIsStale t2 ⟨rows.map fromImapResponse, t1⟩ = false by
      simp only [cacheIsStale, decide_eq_false_iff_not]
      omega]
    rfl
  · intro now forceRefresh cache si rows hconn hby
    rw [listFolders_fetch_path now forceRefresh cache (some si) (.ok rows) ?_,
      listFoldersFetch_live now cache si rows hconn]
    rcases hby with rfl | ⟨e, rfl, hstale⟩
    · exact Or.inl rfl
    · exact Or.inr (Or.inr ⟨e, rfl, by simp only [cacheIsStale, decide_eq_true_eq]; omega⟩)

/-- C7 witness: first call at t=0 lists once; second call at t=30 is served
from cache; a third call at t=700 (entry older than 600 s) lists again. -/
theorem c7_folder_cache_witness :
    ((listFolders 0 false none
        (some (c4s 1 "a@gmail.com" 0)) (.ok [])).listCalls = 1 ∧
      listFolders 30 false (listFolders 0 false none
        (some (c4s 1 "a@gmail.com" 0)) (.ok [])).cache none (.ok []) =
        ⟨.ok (([] : List RawFolder).map fromImapResponse),
         some ⟨([] : List RawFolder).map fromImapResponse, 0⟩, 0⟩) ∧
    listFolders 700 false (some ⟨[], 0⟩) (some (c4s 1 "a@gmail.com" 0)) (.ok []) =
      ⟨.ok (([] : List RawFolder).map fromImapResponse),
       some ⟨([] : List RawFolder).map fromImapResponse, 700⟩, 1⟩ :=
  ⟨c7_folder_cache.1 0 30 (c4s 1 "a@gmail.com" 0) none [] (.ok []) rfl (by decide),
   c7_folder_cache.2 700 false (some ⟨[], 0⟩) (c4s 1 "a@gmail.com" 0) [] rfl
     (Or.inr ⟨⟨[], 0⟩, rfl, by decide⟩)⟩

/-- C8 counterexample: a `list_folders` call for an unknown session id (no
cache entry, no session) fails with `ValueError` ("No active connection for
session ..."), not with `IMAPSessionError`: the claim names the wrong
error. -/
theorem c8_counterexample :
    (listFolders 0 false none none (.ok [])).outcome = .valueErrorNoConn ∧
    (listFolders 0 false none none (.ok [])).outcome ≠ .sessionError := by
  exact ⟨rfl, by decide⟩

/-- C8 (amended): whenever the call is not served from a fresh cache entry
(`force_refresh`, no entry, or a stale entry) and the session has no live
connection (unknown id or absent connection handle), `list_folders` fails
with `ValueError`, performing no list call and leaving the cache
unchanged.  (`IMAPSessionError` is raised only for a failing wire-level list
call, and a call served from a fresh cache entry never consults the
session.) -/
theorem c8_no_connection_amended (now : Int) (forceRefresh : Bool)
    (cache : Option FolderCacheEntry) (session : Option SessionInfo)
    (raw : Except Unit (List RawFolder))
    (hbypass : forceRefresh = true ∨ cache = none ∨
      ∃ e, cache = some e ∧ cacheIsStale now e = true)
    (hdead : session = none ∨ ∃ si, session = some si ∧ si.connection = none) :
    listFolders now forceRefresh cache session raw = ⟨.valueErrorNoConn, cache, 0⟩ := by
  rw [listFolders_fetch_path now forceRefresh cache session raw hbypass]
  rcases hdead with rfl | ⟨si, rfl, hconn⟩
  · rfl
  · unfold listFoldersFetch
    dsimp only
    rw [hconn]
    rfl

/-- C8 (amended) witness: unknown session id with empty cache. -/
theorem c8_no_connection_amended_witness :
    listFolders 0 false none none (.ok []) =
      ⟨.valueErrorNoConn, none, 0⟩ :=
  c8_no_connection_amended 0 false none none (.ok []) (Or.inr (Or.inl rfl)) (Or.inl rfl)

/-! ## Password-validation lemmas and C6 -/

theorem char_upper_not_lower (c : Char) (h : c.isUpper = true) : c.isLower = false := by
  by_contra hne
  have hl : c.isLower = true := by
    revert hne
    cases c.isLower <;> simp
  simp only [Char.isUpper, Bool.and_eq_true, decide_eq_true_eq] at h
  simp only [Char.isLower, Bool.and_eq_true, decide_eq_true_eq] at hl
  have h2 := h.2
  have hl1 := hl.1
  rw [ge_iff_le, UInt32.le_def, BitVec.le_def] at hl1
  rw [UInt32.le_def, BitVec.le_def] at h2
  simp at h2 hl1
  omega

theorem char_lower_not_upper (c : Char) (h : c.isLower = true) : c.isUpper = false := by
  cases hu : c.isUpper with
  | false => rfl
  | true => rw [char_upper_not_lower c hu] at h; cases h

theorem char_alpha_split (c : Char) (h : c.isAlpha = true) :
    c.isUpper = true ∨ c.isLower = true := by
  have : (c.isUpper || c.isLower) = true := h
  exact Bool.or_eq_true_iff.mp this

theorem pyIsAlphaStr_of_length16 (l : List Char) (hl : l.length = 16) :
    pyIsAlphaStr l = true ↔ l.all Char.isAlpha = true := by
  cases l with
  | nil => simp at hl
  | cons x xs => simp [pyIsAlphaStr]

theorem pyIsLowerStr_iff_all_lower (l : List Char) (hne : l ≠ [])
    (hall : l.all Char.isAlpha = true) :
    pyIsLowerStr l = true ↔ l.all Char.isLower = true := by
  simp only [pyIsLowerStr, Bool.and_eq_true, List.any_eq_true, List.all_eq_true,
    Bool.or_eq_true_iff, Bool.not_eq_true'] at *
  constructor
  · intro ⟨_, hnoup⟩ c hc
    rcases char_alpha_split c (hall c hc) with hu | hl2
    · rw [hnoup c hc] at hu; cases hu
    · exact hl2
  · intro hlow
    obtain ⟨c, hc⟩ := List.exists_mem_of_ne_nil l hne
    exact ⟨⟨c, hc, Or.inr (hlow c hc)⟩, fun c hc => char_lower_not_upper c (hlow c hc)⟩

theorem pyIsLowerStr_false_of_any_upper (l : List Char)
    (hup : l.any Char.isUpper = true) : pyIsLowerStr l = false := by
  obtain ⟨c, hc, hcu⟩ := List.any_eq_true.mp hup
  simp only [pyIsLowerStr, Bool.and_eq_false_iff]
  right
  simp only [List.all_eq_false]
  exact ⟨c, hc, by simp [hcu]⟩

theorem isEmpty_false_of_ne_nil {p : List Char} (hne : p ≠ []) : p.isEmpty = false := by
  cases p with
  | nil => exact absurd rfl hne
  | cons a l => rfl

theorem ne_nil_of_clean_length16 {p : List Char}
    (h : (p.filter (fun c => c ≠ ' ')).length = 16) : p ≠ [] := by
  intro he
  subst he
  simp at h

theorem vp_app_ok (p : List Char)
    (hshape : (p.filter (fun c => c ≠ ' ')).length = 16 ∧
      pyIsAlphaStr (p.filter (fun c => c ≠ ' ')) = true)
    (hlow : pyIsLowerStr (p.filter (fun c => c ≠ ' ')) = true) :
    validatePassword p = .ok () := by
  have hie := isEmpty_false_of_ne_nil (ne_nil_of_clean_length16 hshape.1)
  unfold validatePassword
  rw [if_neg (by rw [hie]; exact Bool.false_ne_true), if_pos hshape,
    if_neg (by intro h; rw [hlow] at h; cases h)]

theorem vp_app_upper (p : List Char)
    (hshape : (p.filter (fun c => c ≠ ' ')).length = 16 ∧
      pyIsAlphaStr (p.filter (fun c => c ≠ ' ')) = true)
    (hlow : pyIsLowerStr (p.filter (fun c => c ≠ ' ')) = false) :
    validatePassword p = .error .appPasswordNotLowercase := by
  have hie := isEmpty_false_of_ne_nil (ne_nil_of_clean_length16 hshape.1)
  unfold validatePassword
  rw [if_neg (by rw [hie]; exact Bool.false_ne_true), if_pos hshape, if_pos hlow]

theorem vp_not_shape (p : List Char) (hne : p ≠ [])
    (hns : ¬((p.filter (fun c => c ≠ ' ')).length = 16 ∧
      pyIsAlphaStr (p.filter (fun c => c ≠ ' ')) = true)) :
    validatePassword p =
      if p.length > 64 then .error .tooLong
      else if p.length < 12 then .error .tooShort
      else if complexityCount p < 3 then .error .lowComplexity
      else if hasRun3 p = true then .error .repeatedCharacters
      else .ok () := by
  have hie := isEmpty_false_of_ne_nil hne
  unfold validatePassword
  rw [if_neg (by rw [hie]; exact Bool.false_ne_true), if_neg hns]

theorem shape_prop_iff (p : List Char) :
    ((p.filter (fun c => c ≠ ' ')).length = 16 ∧
      pyIsAlphaStr (p.filter (fun c => c ≠ ' ')) = true) ↔
    ((p.filter (fun c => c ≠ ' ')).length = 16 ∧
      (p.filter (fun c => c ≠ ' ')).all Char.isAlpha = true) := by
  constructor
  · intro ⟨h1, h2⟩
    exact ⟨h1, (pyIsAlphaStr_of_length16 _ h1).mp h2⟩
  · intro ⟨h1, h2⟩
    exact ⟨h1, (pyIsAlphaStr_of_length16 _ h1).mpr h2⟩

/-- C6 counterexample: `"Aa1b\n\n\ncdefgh"` (13 characters, not of the
16-alphabetic shape, length 12-64, three complexity classes) contains a run
of three identical characters (`'\n'`), yet `_validate_password` accepts it,
because `re.search(r'(.)\1{2,}', ...)`'s `.` cannot match a newline: the
claim's "no substring of 3 or more identical consecutive characters" is
false of the program as an acceptance condition. -/
theorem c6_password_validation_counterexample :
    validatePassword "Aa1b\n\n\ncdefgh".toList = .ok () ∧
    hasRun3Spec "Aa1b\n\n\ncdefgh".toList = true ∧
    ¬((("Aa1b\n\n\ncdefgh".toList.filter (fun c => c ≠ ' ')).length = 16 ∧
      ("Aa1b\n\n\ncdefgh".toList.filter (fun c => c ≠ ' ')).all Char.isAlpha = true ∧
      ("Aa1b\n\n\ncdefgh".toList.filter (fun c => c ≠ ' ')).all Char.isLower = true)) :=
  ⟨rfl, by decide, by decide⟩

/-- C6 (amended): `IMAPCredentials` accepts a password iff (a) after removing
spaces it is exactly 16 alphabetic characters, all lowercase, or (b) it is
not of that 16-alphabetic shape and has length 12-64, at least 3 of the 4
character classes, and no run of 3 or more equal characters other than
newlines (`hasRun3` reflects the regex, whose `.` skips newline runs); a
16-alphabetic password containing an uppercase letter gets the
lowercase-guidance error, and each single violated condition of (b) gets its
own specific error. -/
theorem c6_password_validation (p : List Char) :
    (validatePassword p = .ok () ↔
      (((p.filter (fun c => c ≠ ' ')).length = 16 ∧
        (p.filter (fun c => c ≠ ' ')).all Char.isAlpha = true ∧
        (p.filter (fun c => c ≠ ' ')).all Char.isLower = true) ∨
       (¬((p.filter (fun c => c ≠ ' ')).length = 16 ∧
          (p.filter (fun c => c ≠ ' ')).all Char.isAlpha = true) ∧
        12 ≤ p.length ∧ p.length ≤ 64 ∧ 3 ≤ complexityCount p ∧ hasRun3 p = false))) ∧
    ((p.filter (fun c => c ≠ ' ')).length = 16 →
      (p.filter (fun c => c ≠ ' ')).all Char.isAlpha = true →
      (p.filter (fun c => c ≠ ' ')).any Char.isUpper = true →
      validatePassword p = .error .appPasswordNotLowercase) ∧
    (¬((p.filter (fun c => c ≠ ' ')).length = 16 ∧
       (p.filter (fun c => c ≠ ' ')).all Char.isAlpha = true) →
      64 < p.length → validatePassword p = .error .tooLong) ∧
    (¬((p.filter (fun c => c ≠ ' ')).length = 16 ∧
       (p.filter (fun c => c ≠ ' ')).all Char.isAlpha = true) →
      p ≠ [] → p.length < 12 → validatePassword p = .error .tooShort) ∧
    (¬((p.filter (fun c => c ≠ ' ')).length = 16 ∧
       (p.filter (fun c => c ≠ ' ')).all Char.isAlpha = true) →
      12 ≤ p.length → p.length ≤ 64 → complexityCount p < 3 →
      validatePassword p = .error .lowComplexity) ∧
    (¬((p.filter (fun c => c ≠ ' ')).length = 16 ∧
       (p.filter (fun c => c ≠ ' ')).all Char.isAlpha = true) →
      12 ≤ p.length → p.length ≤ 64 → 3 ≤ complexityCount p → hasRun3 p = true →
      validatePassword p = .error .repeatedCharacters) := by
  refine ⟨?_, ?_, ?_, ?_, ?_, ?_⟩
  · -- the acceptance condition
    constructor
    · intro hok
      by_cases hemp : p = []
      · subst hemp
        exact Except.noConfusion hok
      by_cases hshape : ((p.filter (fun c => c ≠ ' ')).length = 16 ∧
          pyIsAlphaStr (p.filter (fun c => c ≠ ' ')) = true)
      · left
        have halpha := (shape_prop_iff p).mp hshape
        cases hlow : pyIsLowerStr (p.filter (fun c => c ≠ ' ')) with
        | false => rw [vp_app_upper p hshape hlow] at hok; cases hok
        | true =>
          have hcne : (p.filter (fun c => c ≠ ' ')) ≠ [] := by
            intro h0
            rw [h0] at hshape
            simp at hshape
          exact ⟨halpha.1, halpha.2,
            (pyIsLowerStr_iff_all_lower _ hcne halpha.2).mp hlow⟩
      · right
        rw [vp_not_shape p hemp hshape] at hok
        by_cases h64 : p.length > 64
        · rw [if_pos h64] at hok; cases hok
        rw [if_neg h64] at hok
        by_cases h12 : p.length < 12
        · rw [if_pos h12] at hok; cases hok
        rw [if_neg h12] at hok
        by_cases hcx : complexityCount p < 3
        · rw [if_pos hcx] at hok; cases hok
        rw [if_neg hcx] at hok
        cases hrun : hasRun3 p with
        | true => rw [if_pos hrun] at hok; cases hok
        | false =>
          exact ⟨fun h => hshape ((shape_prop_iff p).mpr h), by omega, by omega,
            by omega, rfl⟩
    · rintro (⟨h16, halpha, hlower⟩ | ⟨hns, h12, h64, hcx, hrun⟩)
      · have hcne : (p.filter (fun c => c ≠ ' ')) ≠ [] := by
          intro h0
          rw [h0] at h16
          cases h16
        exact vp_app_ok p ((shape_prop_iff p).mpr ⟨h16, halpha⟩)
          ((pyIsLowerStr_iff_all_lower _ hcne halpha).mpr hlower)
      · have hne : p ≠ [] := by
          intro h0
          rw [h0] at h12
          simp at h12
        rw [vp_not_shape p hne (fun h => hns ((shape_prop_iff p).mp h))]
        rw [if_neg (by omega), if_neg (by omega), if_neg (by omega),
          if_neg (by rw [hrun]; exact Bool.false_ne_true)]
  · -- uppercase in a 16-alphabetic password: lowercase guidance
    intro h16 halpha hup
    exact vp_app_upper p ((shape_prop_iff p).mpr ⟨h16, halpha⟩)
      (pyIsLowerStr_false_of_any_upper _ hup)
  · -- too long
    intro hns h64
    have hne : p ≠ [] := by
      intro h0
      rw [h0] at h64
      simp at h64
    rw [vp_not_shape p hne (fun h => hns ((shape_prop_iff p).mp h)), if_pos (by omega)]
  · -- too short
    intro hns hne h12
    rw [vp_not_shape p hne (fun h => hns ((shape_prop_iff p).mp h)),
      if_neg (by omega), if_pos h12]
  · -- low complexity
    intro hns h12 h64 hcx
    have hne : p ≠ [] := by
      intro h0
      rw [h0] at h12
      simp at h12
    rw [vp_not_shape p hne (fun h => hns ((shape_prop_iff p).mp h)),
      if_neg (by omega), if_neg (by omega), if_pos hcx]
  · -- repeated characters
    intro hns h12 h64 hcx hrun
    have hne : p ≠ [] := by
      intro h0
      rw [h0] at h12
      simp at h12
    rw [vp_not_shape p hne (fun h => hns ((shape_prop_iff p).mp h)),
      if_neg (by omega), if_neg (by omega), if_neg (by omega), if_pos hrun]

/-- C6 witness: the reference app password (line 89 of the spec's examples)
is accepted, and its uppercase variant gets the lowercase-guidance error. -/
theorem c6_password_validation_witness :
    validatePassword "abcdefghijklmnop".toList = .ok () ∧
    validatePassword "ABCDEFGHIJKLMNOP".toList = .error .appPasswordNotLowercase :=
  ⟨((c6_password_validation "abcdefghijklmnop".toList).1).mpr
      (Or.inl ⟨by decide, by decide, by decide⟩),
   (c6_password_validation "ABCDEFGHIJKLMNOP".toList).2.1
      (by decide) (by decide) (by decide)⟩

end GmailImap
